import Mathlib

/-!
Verification development for the `toast-queue` library: a shallow embedding of
the pausable countdown timer (`src/utils.js`, class `Timer`), the toast queue
lifecycle (`src/toast-queue.js`, class `ToastQueue`), the swipe gesture
recognizers (`src/swipeable.js`, classes `Swipeable` in two revisions), and the
placement machinery (`src/utils.js` placement tables, `set placement`).

Modelling conventions:
* Wall-clock time (`Date.now()`, `event.timeStamp`) is an explicit parameter of
  each operation; the host timer facility (`setTimeout`) is modelled as a
  pending deadline that an explicit `fire` event consumes.
* `Math.random().toString(36).slice(2)` is a platform random source; its output
  is modelled as an oracle input (the id supplied to `add`).
* JavaScript `null` numeric fields coerce to `0` in the arithmetic and
  comparisons the source performs on them, and are modelled as `0`.
* Pixel quantities and timestamps in the gesture recognizer are rationals;
  `Math.hypot` is an opaque platform primitive passed as a function parameter.
* Ghost observers (`fireCount`, `activeTime`, invocation logs) record callback
  invocations and armed wall-clock time; they are not fields of the JS objects.
-/

namespace ToastTimer

/-- State of one `Timer` instance (`src/utils.js` lines 82-132) together with
the scheduled-timeout state of the host and ghost observers.

* `timerId` models the truthiness of `this.#timerId`.  The source never resets
  it when the timeout fires, so it can be a stale handle: `timerId = true`
  while `pendingDeadline = none` is exactly the post-fire situation.
* `pendingDeadline` is the host's view: `some dl` iff a `setTimeout` scheduled
  by this timer is still pending, due at absolute time `dl`.
* `now` is the current wall-clock time (last observed `Date.now()`).
* `fireCount` (ghost) counts invocations of `this.#functionRef`.
* `activeTime` (ghost) accumulates the wall-clock spans during which a timeout
  was genuinely pending (armed). -/
structure TimerState where
  timerId : Bool
  startTime : Int
  remainingTime : Int
  pendingDeadline : Option Int
  now : Int
  fireCount : Nat
  activeTime : Int
  deriving DecidableEq, Repr

/-- Events a `Timer` instance is subject to: the public `pause()`/`resume()`
calls (at a given wall-clock time) and the host firing the pending timeout. -/
inductive TEvent where
  | pause (t : Int)
  | resume (t : Int)
  | fire
  deriving DecidableEq, Repr

/-- The `Timer` constructor: stores `remainingTime := delay` and calls
`resume()`, which arms `setTimeout(functionRef, remainingTime)` at time `t0`.
A timeout armed with a negative delay is clamped by the host to fire
immediately, hence the `max delay 0`. -/
def Timer.new (delay t0 : Int) : TimerState :=
  { timerId := true
    startTime := t0
    remainingTime := delay
    pendingDeadline := some (t0 + max delay 0)
    now := t0
    fireCount := 0
    activeTime := 0 }

/-- One event step.  Returns `none` for traces the single-threaded host cannot
produce: time running backwards, or a user call ordered at or after the
deadline of a still-pending timeout (the host runs the due timeout first).

`pause()`: no-op when `#timerId` is null; otherwise `clearTimeout`, null the
handle, and subtract the elapsed span since `#startTime` from
`#remainingTime`.  When the handle is stale (timeout already fired) the
`clearTimeout` clears nothing, but the subtraction still happens — this is
source behaviour, not a modelling choice.

`resume()`: no-op when `#timerId` is non-null; otherwise record `#startTime`
and arm a fresh timeout for `#remainingTime`.

`fire`: the host runs the pending timeout at its deadline; `#functionRef` is
invoked and the pending entry is consumed.  The source does not touch
`#timerId` here, so the stored handle goes stale. -/
def tstep (s : TimerState) : TEvent → Option TimerState
  | .pause t =>
    if t < s.now then none
    else
      match s.pendingDeadline with
      | some dl =>
        if dl ≤ t then none
        else if s.timerId then
          some { s with
                  timerId := false
                  pendingDeadline := none
                  remainingTime := s.remainingTime - (t - s.startTime)
                  activeTime := s.activeTime + (t - s.startTime)
                  now := t }
        else some { s with now := t }
      | none =>
        if s.timerId then
          some { s with
                  timerId := false
                  remainingTime := s.remainingTime - (t - s.startTime)
                  now := t }
        else some { s with now := t }
  | .resume t =>
    if t < s.now then none
    else
      match s.pendingDeadline with
      | some dl =>
        if dl ≤ t then none
        else some { s with now := t }
      | none =>
        if s.timerId then some { s with now := t }
        else
          some { s with
                  timerId := true
                  startTime := t
                  pendingDeadline := some (t + max s.remainingTime 0)
                  now := t }
  | .fire =>
    match s.pendingDeadline with
    | some dl =>
      if dl < s.now then none
      else
        some { s with
                pendingDeadline := none
                fireCount := s.fireCount + 1
                activeTime := s.activeTime + (dl - s.startTime)
                now := dl }
    | none => none

/-- Run a list of events from a state; fails if any step is invalid. -/
def trun (s : TimerState) : List TEvent → Option TimerState
  | [] => some s
  | e :: rest =>
    match tstep s e with
    | some s1 => trun s1 rest
    | none => none

/-- Invariant tying the ghost `activeTime` to the timer bookkeeping, for
states that have not fired yet. -/
def TInv (delay : Int) (s : TimerState) : Prop :=
  s.fireCount = 0 →
    0 ≤ s.remainingTime ∧
    s.activeTime + s.remainingTime = delay ∧
    (∀ dl, s.pendingDeadline = some dl →
      s.timerId = true ∧ dl = s.startTime + s.remainingTime) ∧
    (s.pendingDeadline = none → s.timerId = false)

theorem TInv_new (delay t0 : Int) (hd : 0 ≤ delay) : TInv delay (Timer.new delay t0) := by
  intro _
  simp only [Timer.new]
  refine ⟨hd, by omega, ?_, by simp⟩
  intro dl hdl
  simp only [Option.some.injEq] at hdl
  exact ⟨by trivial, by omega⟩

theorem TInv_tstep {delay : Int} {s s' : TimerState} {e : TEvent}
    (hinv : TInv delay s) (h : tstep s e = some s') : TInv delay s' := by
  intro hfc
  cases e with
  | pause t =>
    simp only [tstep] at h
    split at h
    · exact absurd h (by simp)
    cases hdl : s.pendingDeadline with
    | some dl =>
      rw [hdl] at h
      simp only at h
      split at h
      · exact absurd h (by simp)
      rename_i hle
      split at h
      · rename_i htid
        cases h
        obtain ⟨h1, h2, h3, h4⟩ := hinv hfc
        obtain ⟨-, hdl2⟩ := h3 dl hdl
        refine ⟨?_, ?_, ?_, fun _ => rfl⟩
        · show 0 ≤ s.remainingTime - (t - s.startTime)
          omega
        · show s.activeTime + (t - s.startTime) + (s.remainingTime - (t - s.startTime)) = delay
          omega
        · intro d hd
          exact absurd hd (by simp)
      · cases h
        obtain ⟨h1, h2, h3, h4⟩ := hinv hfc
        refine ⟨h1, h2, ?_, ?_⟩
        · intro d hd
          simp only [Option.some.injEq] at hd
          subst hd
          exact h3 dl hdl
        · intro hnone
          exact absurd hnone (by simp)
    | none =>
      rw [hdl] at h
      simp only at h
      split at h
      · rename_i htid
        obtain ⟨-, -, -, h4⟩ := hinv (by cases h; exact hfc)
        exact absurd (h4 hdl) (by simp [htid])
      · cases h
        obtain ⟨h1, h2, h3, h4⟩ := hinv hfc
        refine ⟨h1, h2, ?_, fun _ => h4 hdl⟩
        intro d hd
        exact absurd hd (by simp)
  | resume t =>
    simp only [tstep] at h
    split at h
    · exact absurd h (by simp)
    cases hdl : s.pendingDeadline with
    | some dl =>
      rw [hdl] at h
      simp only at h
      split at h
      · exact absurd h (by simp)
      cases h
      obtain ⟨h1, h2, h3, h4⟩ := hinv hfc
      refine ⟨h1, h2, ?_, ?_⟩
      · intro d hd
        simp only [Option.some.injEq] at hd
        subst hd
        exact h3 dl hdl
      · intro hnone
        exact absurd hnone (by simp)
    | none =>
      rw [hdl] at h
      simp only at h
      split at h
      · rename_i htid
        cases h
        obtain ⟨h1, h2, h3, h4⟩ := hinv hfc
        refine ⟨h1, h2, ?_, fun _ => h4 hdl⟩
        intro d hd
        exact absurd hd (by simp)
      · cases h
        obtain ⟨h1, h2, h3, h4⟩ := hinv hfc
        refine ⟨h1, h2, ?_, ?_⟩
        · intro d hd
          simp only [Option.some.injEq] at hd
          refine ⟨rfl, ?_⟩
          show d = t + s.remainingTime
          omega
        · intro hnone
          exact absurd hnone (by simp)
  | fire =>
    simp only [tstep] at h
    cases hdl : s.pendingDeadline with
    | some dl =>
      rw [hdl] at h
      simp only at h
      split at h
      · exact absurd h (by simp)
      cases h
      exact absurd hfc (by simp)
    | none =>
      rw [hdl] at h
      exact absurd h (by simp)

theorem TInv_trun {delay : Int} {s s' : TimerState} {evs : List TEvent}
    (hinv : TInv delay s) (h : trun s evs = some s') : TInv delay s' := by
  induction evs generalizing s with
  | nil => simp only [trun, Option.some.injEq] at h; exact h ▸ hinv
  | cons e rest ih =>
    simp only [trun] at h
    cases hstep : tstep s e with
    | some s1 =>
      rw [hstep] at h
      exact ih (TInv_tstep hinv hstep) h
    | none => rw [hstep] at h; exact absurd h (by simp)

/-- C2 — Timer conservation: for a countdown created with duration `D ≥ 0` and
any finite valid sequence of `pause()`/`resume()` calls (redundant calls
included — they are no-ops), when the callback fires, the accumulated armed
(active) wall-clock time equals exactly `D`; moreover a `pause()` while
already paused and a `resume()` while already armed leave the timer state
unchanged (besides observing the clock). -/
theorem timer_conservation (delay t0 : Int) (evs : List TEvent) (s s' : TimerState)
    (hd : 0 ≤ delay)
    (hrun : trun (Timer.new delay t0) evs = some s)
    (hfc : s.fireCount = 0)
    (hfire : tstep s .fire = some s') :
    s'.activeTime = delay ∧
    (∀ t, s.timerId = false → s.now ≤ t → tstep s (.pause t) = some { s with now := t }) ∧
    (∀ t dl, s.timerId = true → s.pendingDeadline = some dl → s.now ≤ t → t < dl →
      tstep s (.resume t) = some { s with now := t }) := by
  have hinv := TInv_trun (TInv_new delay t0 hd) hrun
  obtain ⟨h1, h2, h3, h4⟩ := hinv hfc
  refine ⟨?_, ?_, ?_⟩
  · simp only [tstep] at hfire
    cases hdl : s.pendingDeadline with
    | some dl =>
      rw [hdl] at hfire
      simp only at hfire
      split at hfire
      · exact absurd hfire (by simp)
      cases hfire
      obtain ⟨-, hdl2⟩ := h3 dl hdl
      show s.activeTime + (dl - s.startTime) = delay
      omega
    | none => rw [hdl] at hfire; exact absurd hfire (by simp)
  · intro t htid hnow
    simp only [tstep, if_neg (by omega : ¬ t < s.now)]
    cases hdl : s.pendingDeadline with
    | some dl => exact absurd (h3 dl hdl).1 (by simp [htid])
    | none => simp [htid]
  · intro t dl htid hdl hnow hlt
    simp only [tstep, if_neg (by omega : ¬ t < s.now), hdl]
    simp [if_neg (by omega : ¬ dl ≤ t)]

/-- Witness for C2 at a concrete run: duration 100, armed at time 0, with a
redundant double pause and a redundant double resume; the callback fires with
exactly 100 time units of armed time accumulated. -/
theorem timer_conservation_witness :
    trun (Timer.new 100 0)
      [.pause 30, .pause 40, .resume 50, .resume 60, .pause 70, .resume 90] =
      some { timerId := true, startTime := 90, remainingTime := 50,
             pendingDeadline := some 140, now := 90, fireCount := 0, activeTime := 50 } ∧
    tstep { timerId := true, startTime := 90, remainingTime := 50,
            pendingDeadline := some 140, now := 90, fireCount := 0, activeTime := 50 } .fire =
      some { timerId := true, startTime := 90, remainingTime := 50,
             pendingDeadline := none, now := 140, fireCount := 1, activeTime := 100 } ∧
    (100 : Int) =
      ({ timerId := true, startTime := 90, remainingTime := 50,
         pendingDeadline := none, now := 140, fireCount := 1,
         activeTime := 100 } : TimerState).activeTime := by
  refine ⟨by decide, by decide, ?_⟩
  exact ((timer_conservation 100 0
    [.pause 30, .pause 40, .resume 50, .resume 60, .pause 70, .resume 90]
    { timerId := true, startTime := 90, remainingTime := 50,
      pendingDeadline := some 140, now := 90, fireCount := 0, activeTime := 50 }
    { timerId := true, startTime := 90, remainingTime := 50,
      pendingDeadline := none, now := 140, fireCount := 1, activeTime := 100 }
    (by decide) (by decide) (by decide) (by decide)).1).symm

/-- Event lists that contain no `pause` call at all. -/
def noPause : List TEvent → Bool
  | [] => true
  | .pause _ :: _ => false
  | _ :: rest => noPause rest

/-- Event lists in which no `pause` call occurs after a fire of the timeout. -/
def noPauseAfterFire : List TEvent → Bool
  | [] => true
  | .fire :: rest => noPause rest
  | _ :: rest => noPauseAfterFire rest

/-- A pending timeout always belongs to a non-null stored handle.  This holds
at every state of a `Timer` instance, fired or not. -/
def armedImpliesHandle (s : TimerState) : Prop :=
  ∀ dl, s.pendingDeadline = some dl → s.timerId = true

theorem armedImpliesHandle_new (delay t0 : Int) : armedImpliesHandle (Timer.new delay t0) :=
  fun _ _ => rfl

theorem armedImpliesHandle_tstep {s s' : TimerState} {e : TEvent}
    (hq : armedImpliesHandle s) (h : tstep s e = some s') : armedImpliesHandle s' := by
  cases e with
  | pause t =>
    simp only [tstep] at h
    split at h
    · exact absurd h (by simp)
    cases hdl : s.pendingDeadline with
    | some dl =>
      rw [hdl] at h
      simp only at h
      split at h
      · exact absurd h (by simp)
      split at h
      · cases h; intro d hd; exact absurd hd (by simp)
      · cases h
        intro d hd
        simp only [Option.some.injEq] at hd
        exact hq dl hdl
    | none =>
      rw [hdl] at h
      simp only at h
      split at h
      · cases h; intro d hd; exact absurd hd (by simp)
      · cases h; intro d hd; exact absurd hd (by simp)
  | resume t =>
    simp only [tstep] at h
    split at h
    · exact absurd h (by simp)
    cases hdl : s.pendingDeadline with
    | some dl =>
      rw [hdl] at h
      simp only at h
      split at h
      · exact absurd h (by simp)
      cases h
      intro d hd
      simp only [Option.some.injEq] at hd
      exact hq dl hdl
    | none =>
      rw [hdl] at h
      simp only at h
      split at h
      · rename_i htid
        cases h
        intro d hd
        exact htid
      · cases h
        intro d hd
        rfl
  | fire =>
    simp only [tstep] at h
    cases hdl : s.pendingDeadline with
    | some dl =>
      rw [hdl] at h
      simp only at h
      split at h
      · exact absurd h (by simp)
      cases h
      intro d hd
      exact absurd hd (by simp)
    | none => rw [hdl] at h; exact absurd h (by simp)

theorem tstep_pause_fireCount {s s' : TimerState} {t : Int}
    (h : tstep s (.pause t) = some s') : s'.fireCount = s.fireCount := by
  simp only [tstep] at h
  split at h
  · exact absurd h (by simp)
  cases hdl : s.pendingDeadline with
  | some dl =>
    rw [hdl] at h
    simp only at h
    split at h
    · exact absurd h (by simp)
    split at h
    · cases h; rfl
    · cases h; rfl
  | none =>
    rw [hdl] at h
    simp only at h
    split at h
    · cases h; rfl
    · cases h; rfl

theorem tstep_resume_fireCount {s s' : TimerState} {t : Int}
    (h : tstep s (.resume t) = some s') : s'.fireCount = s.fireCount := by
  simp only [tstep] at h
  split at h
  · exact absurd h (by simp)
  cases hdl : s.pendingDeadline with
  | some dl =>
    rw [hdl] at h
    simp only at h
    split at h
    · exact absurd h (by simp)
    cases h; rfl
  | none =>
    rw [hdl] at h
    simp only at h
    split at h
    · cases h; rfl
    · cases h; rfl

/-- After the timeout has fired, a `resume()` call is a no-op (the stale
handle is still stored) and, without an intervening `pause()`, nothing can
re-arm the timer, so the fire count stays put. -/
theorem trun_fireCount_after_fire {evs : List TEvent} {s s' : TimerState}
    (htid : s.timerId = true) (hpd : s.pendingDeadline = none)
    (hnp : noPause evs = true) (h : trun s evs = some s') :
    s'.fireCount = s.fireCount := by
  induction evs generalizing s with
  | nil => simp only [trun, Option.some.injEq] at h; rw [← h]
  | cons e rest ih =>
    simp only [trun] at h
    cases hstep : tstep s e with
    | none => rw [hstep] at h; exact absurd h (by simp)
    | some s1 =>
      rw [hstep] at h
      cases e with
      | pause t => exact absurd hnp (by simp [noPause])
      | resume t =>
        simp only [tstep, hpd] at hstep
        split at hstep
        · exact absurd hstep (by simp)
        simp only [Option.some.injEq] at hstep
        rw [← hstep] at h
        have h2 : trun { s with pendingDeadline := none, now := t } rest = some s' := by
          simpa using h
        exact ih (s := { s with pendingDeadline := none, now := t }) htid rfl
          (by simpa [noPause] using hnp) h2
      | fire =>
        simp only [tstep, hpd] at hstep
        exact absurd hstep (by simp)

theorem trun_fireCount_le_one {evs : List TEvent} {s s' : TimerState}
    (hq : armedImpliesHandle s) (hfc : s.fireCount = 0)
    (hnp : noPauseAfterFire evs = true) (h : trun s evs = some s') :
    s'.fireCount ≤ 1 := by
  induction evs generalizing s with
  | nil =>
    simp only [trun, Option.some.injEq] at h
    rw [← h]
    omega
  | cons e rest ih =>
    simp only [trun] at h
    cases hstep : tstep s e with
    | none => rw [hstep] at h; exact absurd h (by simp)
    | some s1 =>
      rw [hstep] at h
      cases e with
      | pause t =>
        exact ih (armedImpliesHandle_tstep hq hstep)
          ((tstep_pause_fireCount hstep).trans hfc)
          (by simpa [noPauseAfterFire] using hnp) h
      | resume t =>
        exact ih (armedImpliesHandle_tstep hq hstep)
          ((tstep_resume_fireCount hstep).trans hfc)
          (by simpa [noPauseAfterFire] using hnp) h
      | fire =>
        have hnp1 : noPause rest = true := by simpa [noPauseAfterFire] using hnp
        simp only [tstep] at hstep
        cases hdl : s.pendingDeadline with
        | some dl =>
          rw [hdl] at hstep
          simp only at hstep
          split at hstep
          · exact absurd hstep (by simp)
          cases hstep
          have h2 : s'.fireCount = s.fireCount + 1 :=
            trun_fireCount_after_fire (s := { s with
                pendingDeadline := none, fireCount := s.fireCount + 1,
                activeTime := s.activeTime + (dl - s.startTime), now := dl })
              (hq dl hdl) rfl hnp1 h
          omega
        | none => rw [hdl] at hstep; exact absurd hstep (by simp)

/-- C8 (amended) — for a countdown timer and any valid finite sequence of
`pause()`/`resume()` calls in which no `pause()` call is made after the
timeout has fired, the timer's callback is invoked at most once.  (Without
that proviso the fire is not terminal, see the counterexample: a `pause()`
after the fire nulls the stale handle and drives `#remainingTime` negative,
and a subsequent `resume()` re-arms a timeout that fires immediately.) -/
theorem timer_fire_at_most_once (delay t0 : Int) (evs : List TEvent) (s : TimerState)
    (hnp : noPauseAfterFire evs = true)
    (h : trun (Timer.new delay t0) evs = some s) :
    s.fireCount ≤ 1 :=
  trun_fireCount_le_one (armedImpliesHandle_new delay t0) rfl hnp h

/-- Witness for the amended C8: a pause/resume cycle before the fire and a
redundant `resume()` after it; the callback runs exactly once. -/
theorem timer_fire_at_most_once_witness :
    noPauseAfterFire [.pause 30, .resume 50, .fire, .resume 300] = true ∧
    trun (Timer.new 100 0) [.pause 30, .resume 50, .fire, .resume 300] =
      some { timerId := true, startTime := 50, remainingTime := 70,
             pendingDeadline := none, now := 300, fireCount := 1, activeTime := 100 } ∧
    ({ timerId := true, startTime := 50, remainingTime := 70,
       pendingDeadline := none, now := 300, fireCount := 1,
       activeTime := 100 } : TimerState).fireCount ≤ 1 :=
  ⟨by decide, by decide,
    timer_fire_at_most_once 100 0 [.pause 30, .resume 50, .fire, .resume 300]
      { timerId := true, startTime := 50, remainingTime := 70,
        pendingDeadline := none, now := 300, fireCount := 1, activeTime := 100 }
      (by decide) (by decide)⟩

/-- Counterexample to C8 as stated: with the sequence `fire`, `pause(200)`,
`resume(210)`, the stale handle is cleared by the post-fire pause,
`#remainingTime` becomes negative, the resume re-arms an immediately-due
timeout, and the callback is invoked a second time. -/
theorem timer_double_fire_counterexample :
    (trun (Timer.new 100 0) [.fire, .pause 200, .resume 210, .fire]).map
      TimerState.fireCount = some 2 := by
  decide

end ToastTimer

namespace ToastQueue

/-- One entry of `this.#queue` as built by `#createToastRef`
(`src/toast-queue.js` lines 107-119).  `content` and `actionButton` are
opaque payload and are not modelled.  `timer` records whether a `Timer` was
constructed (`timeout ? new Timer(...) : undefined`); `onClose` records
whether an `onClose` callback was supplied (`options?.onClose || undefined`). -/
structure ToastRef where
  id : String
  index : Nat
  timer : Bool
  dismissible : Bool
  onClose : Bool
  deriving DecidableEq

/-- Mirrors `#createToastRef`: the id comes from
`Math.random().toString(36).slice(2)` — a platform random source, supplied
here as the oracle input `newId` —, `index` snapshots `this.#queue.size + 1`,
and a timer exists iff the effective `timeout` is truthy (non-zero). -/
def createToastRef (queueSize : Nat) (newId : String) (timeout : Int)
    (dismissible hasOnClose : Bool) : ToastRef :=
  { id := newId
    index := queueSize + 1
    timer := timeout != 0
    dismissible := dismissible
    onClose := hasOnClose }

/-- The queue mutation performed by `add` (line 231: `this.#queue.add(toastRef)`;
`Set` insertion order is insertion at the end).  Returns the new queue and the
returned entry reference.  The DOM work (`this.update(...)` prepending the
item) is presentation layer, excluded from the model per the spec's scope. -/
def add (q : List ToastRef) (newId : String) (timeout : Int)
    (dismissible hasOnClose : Bool) : List ToastRef × ToastRef :=
  let toastRef := createToastRef q.length newId timeout dismissible hasOnClose
  (q ++ [toastRef], toastRef)

/-- The queue-walk portion of `close(id)` (lines 238-244): walk the queue in
insertion order, and for every entry whose id matches, invoke its `onClose`
callback (if it is a function) and delete the entry.  The second component is
the ghost log of `onClose` invocations (the ids of the entries whose callback
ran, in call order).  The method's trailing `this.update(...)` DOM removal
(lines 245-247) is modelled on top of this walk by `closeFull` below. -/
def close : List ToastRef → String → List ToastRef × List String
  | [], _ => ([], [])
  | t :: ts, id =>
    let rest := close ts id
    if t.id = id then (rest.1, (if t.onClose then [t.id] else []) ++ rest.2)
    else (t :: rest.1, rest.2)

/-- The ids of the entries currently live in the queue. -/
def liveIds (q : List ToastRef) : List String := q.map ToastRef.id

/-- Public operations driving the queue, for whole-trace statements.  An
`add` carries the oracle outputs consumed by that call (the generated id)
together with the caller-supplied options. -/
inductive Op where
  | add (id : String) (timeout : Int) (dismissible hasOnClose : Bool)
  | close (id : String)
  deriving DecidableEq

/-- Run a sequence of public operations against a queue. -/
def runOps : List ToastRef → List Op → List ToastRef
  | q, [] => q
  | q, .add id tmo d c :: rest => runOps (add q id tmo d c).1 rest
  | q, .close id :: rest => runOps (close q id).1 rest

/-- Holds when, along the run, every id the random source hands to `add` is
distinct from all ids live at that moment.  The source itself gives no such
guarantee (no collision check is performed on `Math.random` output). -/
def freshIds : List ToastRef → List Op → Bool
  | _, [] => true
  | q, .add id tmo d c :: rest =>
    if id ∈ liveIds q then false else freshIds (add q id tmo d c).1 rest
  | q, .close id :: rest => freshIds (close q id).1 rest

theorem close_fst_filter (q : List ToastRef) (id : String) :
    (close q id).1 = q.filter (fun t => t.id != id) := by
  induction q with
  | nil => rfl
  | cons t ts ih =>
    by_cases h : t.id = id
    · simp [close, h, ih]
    · simp [close, h, ih]

theorem close_of_not_mem {q : List ToastRef} {id : String} (h : id ∉ liveIds q) :
    close q id = (q, []) := by
  induction q with
  | nil => rfl
  | cons t ts ih =>
    simp only [liveIds, List.map_cons, List.mem_cons, not_or] at h
    have ht : ¬ t.id = id := fun he => h.1 he.symm
    have hts := ih (by simpa [liveIds] using h.2)
    simp [close, ht, hts]

theorem not_mem_close (q : List ToastRef) (id : String) :
    id ∉ liveIds (close q id).1 := by
  rw [close_fst_filter]
  intro hmem
  simp only [liveIds, List.mem_map] at hmem
  obtain ⟨t, ht, hid⟩ := hmem
  rw [List.mem_filter] at ht
  simp only [bne_iff_ne] at ht
  exact ht.2 hid

theorem close_snd_single {q : List ToastRef} {id : String}
    (hcount : (liveIds q).count id = 1)
    (hcb : (q.filter (fun t => t.id == id)).all ToastRef.onClose = true) :
    (close q id).2 = [id] := by
  induction q with
  | nil => simp [liveIds] at hcount
  | cons t ts ih =>
    by_cases h : t.id = id
    · have hrest : id ∉ liveIds ts := by
        intro hmem
        have h0 : 1 ≤ (liveIds ts).count id := List.count_pos_iff.mpr hmem
        have h1 : (liveIds (t :: ts)).count id = (liveIds ts).count id + 1 := by
          simp [liveIds, List.count_cons, h]
        omega
      have hcl := close_of_not_mem hrest
      have hon : t.onClose = true := by
        simp only [List.all_eq_true] at hcb
        exact hcb t (by simp [List.mem_filter, h])
      simp [close, h, hcl, hon]
    · have hcount2 : (liveIds ts).count id = 1 := by
        simpa [liveIds, List.count_cons, Ne.symm h] using hcount
      have hcb2 : (ts.filter (fun t => t.id == id)).all ToastRef.onClose = true := by
        simpa [List.filter_cons, h] using hcb
      simp [close, h, ih hcount2 hcb2]

/-- The queue together with the group's DOM children: each `<li>` element of
the group is identified by the `data-toastq-id` of the toast part it wraps,
in DOM order (one `<li>` per `add`). -/
structure QueueDom where
  queue : List ToastRef
  dom : List String
  deriving DecidableEq

/-- Mirrors `this.#group.querySelector('li:has([data-toastq-id="id"])')`:
the first matching list item, or null (`none`). -/
def querySelectorItem (dom : List String) (id : String) : Option String :=
  dom.find? (fun x => x == id)

/-- The full `close(id)` method (lines 237-248): the queue walk (`close`)
runs first, then `this.update(...)` runs the DOM callback
`querySelector('li:has([data-toastq-id="id"])').remove()` — unconditionally,
with no null check.  `immediate` tells which path `wrapInViewTransition`
(utils.js lines 57-77) takes: when reduced motion is preferred or the View
Transition API is unsupported it invokes the callback synchronously, so a
missing list item makes `.remove()` dereference null and the TypeError
propagates out of `close`; otherwise the callback is deferred into
`document.startViewTransition` and `close` itself returns without a
synchronous error (the deferred mutation happens inside the transition,
outside this step).  Result: `((state', onCloseLog), threw)` — the queue
walk's effects persist even when the tail throws, because they happen before
the `update` call. -/
def closeFull (immediate : Bool) (s : QueueDom) (id : String) :
    (QueueDom × List String) × Bool :=
  let walk := close s.queue id
  if immediate then
    match querySelectorItem s.dom id with
    | none => (({ queue := walk.1, dom := s.dom }, walk.2), true)
    | some _ => (({ queue := walk.1, dom := s.dom.erase id }, walk.2), false)
  else
    (({ queue := walk.1, dom := s.dom }, walk.2), false)

theorem closeFull_walk (imm : Bool) (s : QueueDom) (id : String) :
    (closeFull imm s id).1.1.queue = (close s.queue id).1 ∧
    (closeFull imm s id).1.2 = (close s.queue id).2 := by
  simp only [closeFull]
  split
  · split
    · exact ⟨rfl, rfl⟩
    · exact ⟨rfl, rfl⟩
  · exact ⟨rfl, rfl⟩

theorem closeFull_threw (imm : Bool) (s : QueueDom) (id : String) :
    (closeFull imm s id).2 = (imm && (querySelectorItem s.dom id == none)) := by
  simp only [closeFull]
  split
  · rename_i himm
    cases hq : querySelectorItem s.dom id <;> simp [himm, hq]
  · rename_i himm
    simp only [Bool.not_eq_true] at himm
    simp [himm]

theorem closeFull_dom_of_found {s : QueueDom} {id x : String}
    (hq : querySelectorItem s.dom id = some x) :
    (closeFull true s id).1.1.dom = s.dom.erase id := by
  simp [closeFull, hq]

/-- Counterexample to C1 as stated: with the immediate (non-transition) path
of `wrapInViewTransition`, `close` on an id with no matching list item throws
a TypeError (`querySelector` returns null, and `.remove()` is called on it
unconditionally).  This happens both for an id that was never present and on
the second of two closes of the same id, refuting "a no-op that raises no
error" and "the second call is a no-op". -/
theorem close_absent_throws_counterexample :
    (closeFull true
      { queue := [{ id := "a", index := 1, timer := true, dismissible := true,
                    onClose := true }], dom := ["a"] } "z").2 = true ∧
    (closeFull true
      (closeFull true
        { queue := [{ id := "a", index := 1, timer := true, dismissible := true,
                      onClose := true }], dom := ["a"] } "a").1.1 "a").2 = true := by
  decide

/-- C1 (amended) — `close(id)` is idempotent at the queue level but not
error-free: closing an id not present leaves the queue unchanged and invokes
no callback, and when exactly one entry with the id is present and has an
`onClose` callback, that callback runs exactly once; however the trailing
presentation update unconditionally removes the toast's list item, so `close`
throws a TypeError exactly when the view-transition wrapper applies the
mutation immediately (reduced motion preferred, or View Transition API
unsupported) and no matching list item exists — in particular the second of
two immediate closes of the same id throws; only the deferred
view-transition path returns without a synchronous error. -/
theorem close_queue_idempotent_dom_throw (imm : Bool) (s : QueueDom) (id : String) :
    (id ∉ liveIds s.queue →
      (closeFull imm s id).1.1.queue = s.queue ∧ (closeFull imm s id).1.2 = []) ∧
    (closeFull imm s id).2 = (imm && (querySelectorItem s.dom id == none)) ∧
    ((liveIds s.queue).count id = 1 →
      (s.queue.filter (fun t => t.id == id)).all ToastRef.onClose = true →
      (closeFull imm s id).1.2 = [id]) ∧
    (s.dom.count id ≤ 1 → (closeFull true s id).2 = false →
      (closeFull true (closeFull true s id).1.1 id).2 = true) := by
  obtain ⟨hq, hl⟩ := closeFull_walk imm s id
  refine ⟨?_, closeFull_threw imm s id, ?_, ?_⟩
  · intro h
    rw [hq, hl, close_of_not_mem h]
    exact ⟨rfl, rfl⟩
  · intro h1 h2
    rw [hl]
    exact close_snd_single h1 h2
  · intro hcnt hfalse
    rw [closeFull_threw] at hfalse
    simp only [Bool.true_and] at hfalse
    cases hfind : querySelectorItem s.dom id with
    | none => rw [hfind] at hfalse; exact absurd hfalse (by simp)
    | some x =>
      have hxid : x = id := by
        have := List.find?_some hfind
        simpa using this
      have hmem : id ∈ s.dom := hxid ▸ List.mem_of_find?_eq_some hfind
      have hone : s.dom.count id = 1 := by
        have := List.count_pos_iff.mpr hmem
        omega
      have hgone : id ∉ s.dom.erase id := by
        intro hmem2
        have hpos := List.count_pos_iff.mpr hmem2
        rw [List.count_erase_self] at hpos
        omega
      have hnone : querySelectorItem (s.dom.erase id) id = none := by
        apply List.find?_eq_none.mpr
        intro y hy hbeq
        exact hgone (by rwa [eq_of_beq hbeq] at hy)
      rw [closeFull_threw, closeFull_dom_of_found hfind, hnone]
      rfl

/-- Witness for the amended C1: a queue holding toast "a" (with an `onClose`)
and its list item.  An immediate close of the unknown id "z" throws; the
close of "a" runs the callback exactly once; and the second immediate close
of "a" throws because its list item is already gone. -/
theorem close_queue_idempotent_dom_throw_witness :
    (closeFull true
      { queue := [{ id := "a", index := 1, timer := true, dismissible := true,
                    onClose := true }], dom := ["a"] } "z").2 = true ∧
    (closeFull true
      { queue := [{ id := "a", index := 1, timer := true, dismissible := true,
                    onClose := true }], dom := ["a"] } "a").1.2 = ["a"] ∧
    (closeFull true
      (closeFull true
        { queue := [{ id := "a", index := 1, timer := true, dismissible := true,
                      onClose := true }], dom := ["a"] } "a").1.1 "a").2 = true :=
  ⟨((close_queue_idempotent_dom_throw true
      { queue := [{ id := "a", index := 1, timer := true, dismissible := true,
                    onClose := true }], dom := ["a"] } "z").2.1).trans (by decide),
   (close_queue_idempotent_dom_throw true
      { queue := [{ id := "a", index := 1, timer := true, dismissible := true,
                    onClose := true }], dom := ["a"] } "a").2.2.1
      (by decide) (by decide),
   (close_queue_idempotent_dom_throw true
      { queue := [{ id := "a", index := 1, timer := true, dismissible := true,
                    onClose := true }], dom := ["a"] } "a").2.2.2
      (by decide) (by decide)⟩

/-- Counterexample to C4 as stated: the id returned by `add` is
`Math.random().toString(36).slice(2)` with no collision check against live
entries, so on the random outcome that produces `"a"` twice, the second
`add` returns an id already live.  (The trace is a possible behaviour of the
code for that random outcome.) -/
theorem add_duplicate_id_counterexample :
    liveIds (add (add [] "a" 100 true false).1 "a" 100 true false).1 = ["a", "a"] ∧
    ((add (add [] "a" 100 true false).1 "a" 100 true false).2).id ∈
      liveIds (add [] "a" 100 true false).1 := by
  decide

theorem nodup_close {q : List ToastRef} {id : String}
    (h : (liveIds q).Nodup) : (liveIds (close q id).1).Nodup := by
  rw [close_fst_filter]
  exact List.Nodup.sublist ((List.filter_sublist q).map ToastRef.id) h

theorem nodup_add {q : List ToastRef} {id : String} {tmo : Int} {d c : Bool}
    (h : (liveIds q).Nodup) (hf : id ∉ liveIds q) :
    (liveIds (add q id tmo d c).1).Nodup := by
  have hsplit : liveIds (add q id tmo d c).1 = liveIds q ++ [id] := by
    simp [liveIds, add, createToastRef]
  rw [hsplit, List.nodup_append]
  refine ⟨h, List.nodup_singleton _, ?_⟩
  intro a ha hb
  rw [List.mem_singleton] at hb
  exact hf (hb ▸ ha)

/-- C4 (amended) — conditional uniqueness: provided the random source hands
`add` an id distinct from every currently live id at each step (the code
itself performs no collision check), live ids stay pairwise distinct along
any sequence of `add`/`close` operations; moreover entries are immutable:
`close` keeps surviving entries verbatim and `add` appends the created
reference, so an entry's id is stable for its lifetime. -/
theorem add_unique_ids (q : List ToastRef) (ops : List Op)
    (h1 : (liveIds q).Nodup) (h2 : freshIds q ops = true) :
    (liveIds (runOps q ops)).Nodup ∧
    (∀ id, (close q id).1 = q.filter (fun t => t.id != id)) ∧
    (∀ id tmo d c, (add q id tmo d c).1 = q ++ [(add q id tmo d c).2]) := by
  refine ⟨?_, fun id => close_fst_filter q id, fun id tmo d c => rfl⟩
  induction ops generalizing q with
  | nil => exact h1
  | cons op rest ih =>
    cases op with
    | add id tmo d c =>
      simp only [freshIds] at h2
      split at h2
      · exact absurd h2 (by simp)
      · rename_i hf
        exact ih _ (nodup_add h1 hf) h2
    | close id =>
      simp only [freshIds] at h2
      exact ih _ (nodup_close h1) h2

/-- Witness for the amended C4: a fresh-id trace (ids a, b, c with a closed
in between) yields pairwise distinct live ids. -/
theorem add_unique_ids_witness :
    freshIds [] [.add "a" 100 true false, .add "b" 100 true false, .close "a",
      .add "c" 100 true false] = true ∧
    (liveIds (runOps [] [.add "a" 100 true false, .add "b" 100 true false,
      .close "a", .add "c" 100 true false])).Nodup :=
  ⟨by decide,
   (add_unique_ids [] [.add "a" 100 true false, .add "b" 100 true false,
      .close "a", .add "c" 100 true false] (by simp [liveIds]) (by decide)).1⟩

/-- C10 — the `index` field is a snapshot of `#queue.size + 1` taken inside
`#createToastRef` and never rewritten afterwards (`close` keeps surviving
entries verbatim), so it is not unique among live entries: after add A,
add B, close A, add C, the live entries B and C both carry index 2. -/
theorem index_snapshot_not_unique :
    (∀ q id tmo d c, ((add q id tmo d c).2).index = q.length + 1) ∧
    (∀ q id, (close q id).1 = q.filter (fun t => t.id != id)) ∧
    (runOps [] [.add "a" 0 true false, .add "b" 0 true false, .close "a",
      .add "c" 0 true false]).map ToastRef.index = [2, 2] ∧
    (runOps [] [.add "a" 0 true false, .add "b" 0 true false, .close "a",
      .add "c" 0 true false]).map ToastRef.id = ["b", "c"] :=
  ⟨fun _ _ _ _ _ => rfl, fun q id => close_fst_filter q id, by decide, by decide⟩

/-- A `ToastQueue` instance together with the host's timer facility and a
wall clock.  `pending` lists the `setTimeout` callbacks scheduled by the
per-toast `Timer` constructors and still pending: each is a pair
`(toastId, deadline)` whose callback is `() => this.close(toastId)`
(line 113).  `onCloseLog` and `fireLog` are ghost logs of `onClose`
invocations and of timeout-callback runs. -/
structure Sys where
  queue : List ToastRef
  pending : List (String × Int)
  now : Int
  onCloseLog : List String
  fireLog : List String
  deriving DecidableEq

/-- A fresh queue instance at time zero. -/
def Sys.init : Sys :=
  { queue := [], pending := [], now := 0, onCloseLog := [], fireLog := [] }

/-- The `add` operation at system level, at wall-clock time `t`: the created
entry joins the queue, and when the effective timeout is truthy a `Timer` is
constructed, whose constructor immediately arms
`setTimeout(() => this.close(toastId), timeout)` — a pending callback due at
`t + max timeout 0`. -/
def sysAdd (s : Sys) (t : Int) (newId : String) (timeout : Int)
    (dismissible hasOnClose : Bool) : Option Sys :=
  if t < s.now then none
  else
    some { s with
            queue := (add s.queue newId timeout dismissible hasOnClose).1
            pending :=
              if timeout != 0 then s.pending ++ [(newId, t + max timeout 0)]
              else s.pending
            now := t }

/-- The `close(id)` operation at system level.  It performs exactly the queue
walk of `close` and nothing else: the source never calls `Timer.clear`
(`src/utils.js` lines 127-131 have no caller), so `pending` is left
untouched. -/
def sysClose (s : Sys) (t : Int) (id : String) : Option Sys :=
  if t < s.now then none
  else
    some { s with
            queue := (close s.queue id).1
            onCloseLog := s.onCloseLog ++ (close s.queue id).2
            now := t }

/-- The host runs a pending timeout at its deadline: the entry leaves the
pending set, the run is logged, and the timeout's callback
`() => this.close(toastId)` executes. -/
def sysFire (s : Sys) (id : String) (dl : Int) : Option Sys :=
  if (id, dl) ∈ s.pending ∧ s.now ≤ dl then
    some { s with
            queue := (close s.queue id).1
            onCloseLog := s.onCloseLog ++ (close s.queue id).2
            pending := s.pending.erase (id, dl)
            fireLog := s.fireLog ++ [id]
            now := dl }
  else none

/-- Counterexample to C9 as stated: add a toast with a 100ms auto-dismiss at
time 0, close it at time 50.  The pending timeout is NOT cancelled (it is
still scheduled after the close), and at time 100 it fires, so the entry's
countdown callback does run after the close. -/
theorem close_leaves_timeout_counterexample :
    ((sysAdd Sys.init 0 "a" 100 true true).bind fun s => sysClose s 50 "a").map
        Sys.pending = some [("a", 100)] ∧
    (((sysAdd Sys.init 0 "a" 100 true true).bind fun s =>
        sysClose s 50 "a").bind fun s => sysFire s "a" 100).map
        Sys.fireLog = some ["a"] := by
  decide

/-- C9 (amended) — `close(id)` does not cancel the entry's pending
auto-dismiss timeout (the queue never calls `Timer.clear`): the pending set
is untouched by `close`, and the id is no longer live afterwards; when the
timeout later fires against a queue in which the id is not live, its callback
`close(toastId)` runs but leaves the queue unchanged and invokes no
`onClose` callback — the late fire is harmless because `close` is
idempotent. -/
theorem close_no_cancel_late_fire_noop (s : Sys) (t dl : Int) (id : String) :
    (∀ s', sysClose s t id = some s' →
      s'.pending = s.pending ∧ id ∉ liveIds s'.queue) ∧
    (id ∉ liveIds s.queue → ∀ s'', sysFire s id dl = some s'' →
      s''.queue = s.queue ∧ s''.onCloseLog = s.onCloseLog ∧
      s''.fireLog = s.fireLog ++ [id]) := by
  constructor
  · intro s' h
    simp only [sysClose] at h
    split at h
    · exact absurd h (by simp)
    simp only [Option.some.injEq] at h
    rw [← h]
    exact ⟨rfl, not_mem_close s.queue id⟩
  · intro hid s'' h
    simp only [sysFire] at h
    split at h
    · simp only [Option.some.injEq] at h
      rw [← h]
      have hc := close_of_not_mem hid
      refine ⟨?_, ?_, rfl⟩
      · show (close s.queue id).1 = s.queue
        rw [hc]
      · show s.onCloseLog ++ (close s.queue id).2 = s.onCloseLog
        rw [hc]
        simp
    · exact absurd h (by simp)

/-- Witness for the amended C9 at the concrete counterexample trace: the
close at time 50 preserves the pending timeout, and the fire at time 100
leaves the queue and the onClose log unchanged. -/
theorem close_no_cancel_late_fire_noop_witness :
    ({ queue := [], pending := [("a", 100)], now := 50, onCloseLog := ["a"],
       fireLog := [] } : Sys).pending =
      ({ queue := [{ id := "a", index := 1, timer := true, dismissible := true,
                     onClose := true }],
         pending := [("a", 100)], now := 0, onCloseLog := [],
         fireLog := [] } : Sys).pending ∧
    ({ queue := [], pending := [], now := 100, onCloseLog := ["a"],
       fireLog := ["a"] } : Sys).queue =
      ({ queue := [], pending := [("a", 100)], now := 50, onCloseLog := ["a"],
         fireLog := [] } : Sys).queue :=
  ⟨((close_no_cancel_late_fire_noop
      { queue := [{ id := "a", index := 1, timer := true, dismissible := true,
                    onClose := true }],
        pending := [("a", 100)], now := 0, onCloseLog := [], fireLog := [] }
      50 100 "a").1
      { queue := [], pending := [("a", 100)], now := 50, onCloseLog := ["a"],
        fireLog := [] }
      (by decide)).1,
   ((close_no_cancel_late_fire_noop
      { queue := [], pending := [("a", 100)], now := 50, onCloseLog := ["a"],
        fireLog := [] }
      50 100 "a").2 (by decide)
      { queue := [], pending := [], now := 100, onCloseLog := ["a"],
        fireLog := ["a"] }
      (by decide)).1⟩

end ToastQueue

namespace Swipeable

/-- An element as the gesture recognizer sees it: its identity, its
`data-swipeable` attribute (`none` models absent or empty, both falsy), and
its measured extent (`offsetWidth`/`offsetHeight`). -/
structure Elem where
  eid : Nat
  swipeAttr : Option String
  offsetWidth : ℚ
  offsetHeight : ℚ
  deriving DecidableEq

/-- A pointer event: `targetHit` is the result of
`event.target.closest('[data-swipeable]')`, plus the coordinates and the
event timestamp the handlers read. -/
structure PointerEvent where
  targetHit : Option Elem
  clientX : ℚ
  clientY : ℚ
  timeStamp : ℚ
  deriving DecidableEq

/-- The private fields of the `Swipeable` class of `src/swipeable.js`
(lines 11-171, the `onSwipe`-based revision), with JavaScript `null` numeric
initial values modelled as `0` (they only ever flow into arithmetic and
comparisons, where `null` coerces to `0`).  `targetTranslate` and
`swipeDistanceVar` model the `translate` style property and the
`--tq-swipe-distance` custom property the animation-frame callback writes on
the current target (`none` = property absent, i.e. the element sits at its
original offset). -/
structure SwState where
  target : Option Elem
  isDragging : Bool
  startX : ℚ
  startY : ℚ
  direction : String
  timestamp : ℚ
  distance : ℚ
  velocity : ℚ
  acceleration : ℚ
  targetTranslate : Option (ℚ × ℚ)
  swipeDistanceVar : Option ℚ
  deriving DecidableEq

/-- Mirrors `const inlineDirections = ['inline', 'horizontal', 'left', 'right']`. -/
def inlineDirections : List String := ["inline", "horizontal", "left", "right"]

/-- Mirrors `const blockDirections = ['block', 'vertical', 'up', 'down']`. -/
def blockDirections : List String := ["block", "vertical", "up", "down"]

/-- The class-field initial state (`#target = null`, `#isDragging = null`,
`#direction = 'inline'`, numeric fields `null`). -/
def initial : SwState :=
  { target := none, isDragging := false, startX := 0, startY := 0,
    direction := "inline", timestamp := 0, distance := 0, velocity := 0,
    acceleration := 0, targetTranslate := none, swipeDistanceVar := none }

/-- Mirrors `startDrag` (lines 64-75): if the event target is inside a
swipeable-tagged element, RE-INITIALIZE the gesture state towards it — note
the source performs no "already dragging" check.  The `will-change` style
write is presentation-only and omitted. -/
def startDrag (s : SwState) (e : PointerEvent) : SwState :=
  match e.targetHit with
  | none => s
  | some tgt =>
    { s with
        target := some tgt
        isDragging := true
        startX := e.clientX
        startY := e.clientY
        direction := tgt.swipeAttr.getD s.direction
        timestamp := e.timeStamp }

/-- Mirrors `drag` (lines 83-121).  `hyp` is the opaque platform primitive
`Math.hypot`.  The velocity/acceleration/distance update is guarded by
`if (dt > 0)`, so a zero-elapsed sample performs no division and retains the
previous values.  The animation-frame callback (coalesced by
cancel-and-reschedule, modelled as running) writes the `translate` offset and
the `--tq-swipe-distance` property from the current `#distance`.  The
`dataset.dragging` marker is presentation-only and omitted.  (The `none`
target arm is unreachable while a drag is in progress — the source assumes
`this.#target` is non-null here.) -/
def drag (hyp : ℚ → ℚ → ℚ) (s : SwState) (e : PointerEvent) : SwState :=
  if s.isDragging = false then s
  else if s.direction = "left" ∧ e.clientX - 10 > s.startX then s
  else if s.direction = "right" ∧ e.clientX + 10 < s.startX then s
  else if s.direction = "up" ∧ e.clientY - 10 > s.startY then s
  else if s.direction = "down" ∧ e.clientY + 10 < s.startY then s
  else
    match s.target with
    | none => s
    | some tgt =>
      let dx := if s.direction ∈ inlineDirections then e.clientX - s.startX else 0
      let dy := if s.direction ∈ blockDirections then e.clientY - s.startY else 0
      let dt := e.timeStamp - s.timestamp
      let s1 :=
        if dt > 0 then
          let velocityX := dx / dt
          let velocityY := dy / dt
          let distance :=
            if s.direction ∈ inlineDirections then |dx| / tgt.offsetWidth
            else |dy| / tgt.offsetHeight
          let velocity := hyp velocityX velocityY
          let acceleration := (velocity - s.velocity) / dt
          { s with timestamp := e.timeStamp, velocity := velocity,
                   acceleration := acceleration, distance := distance }
        else s
      { s1 with targetTranslate := some (dx, dy),
                swipeDistanceVar := some s1.distance }

/-- Mirrors `endDrag` (lines 128-159).  The second component is the list of
`onSwipe` invocations this release performs (each with its `{ target }`
argument): on commit the scheduled animation frame calls the completion
callback once with the dragged element; on cancel it restores the original
offset instead (removing `translate` and `--tq-swipe-distance`; the
`will-change`/`transition`/`dataset.dragging` cleanup is presentation-only
and omitted).  The source's float literals `0.5`/`0.1` are the exact
rationals here. -/
def endDrag (s : SwState) : SwState × List (Option Elem) :=
  if s.isDragging = false then (s, [])
  else if s.distance > 1/2 ∨ (s.distance > 1/10 ∧ s.acceleration > 1/10) then
    ({ s with isDragging := false, startX := 0, startY := 0, timestamp := 0,
              distance := 0, velocity := 0, acceleration := 0 },
     [s.target])
  else
    ({ s with isDragging := false, startX := 0, startY := 0, timestamp := 0,
              distance := 0, velocity := 0, acceleration := 0,
              targetTranslate := none, swipeDistanceVar := none },
     [])

/-- C3 — gesture commit decision: on release of an active drag, if the
normalized progress exceeds 0.5, or exceeds 0.1 with final acceleration above
the 0.1 flick threshold, the completion callback is invoked exactly once with
the dragged element; a drag with progress below 0.1 (whatever the recorded
speed) triggers zero completion callbacks and the element is returned to its
original offset. -/
theorem endDrag_commit_decision (s : SwState) (h : s.isDragging = true) :
    (s.distance > 1/2 ∨ (s.distance > 1/10 ∧ s.acceleration > 1/10) →
      (endDrag s).2 = [s.target]) ∧
    (s.distance < 1/10 →
      (endDrag s).2 = [] ∧ (endDrag s).1.targetTranslate = none ∧
      (endDrag s).1.swipeDistanceVar = none) := by
  constructor
  · intro hc
    unfold endDrag
    rw [if_neg (by simp [h]), if_pos hc]
  · intro hlow
    have hnc : ¬ (s.distance > 1/2 ∨ (s.distance > 1/10 ∧ s.acceleration > 1/10)) := by
      rintro (h1 | ⟨h2, -⟩)
      · linarith
      · linarith
    unfold endDrag
    rw [if_neg (by simp [h]), if_neg hnc]
    exact ⟨rfl, rfl, rfl⟩

/-- Witness for C3: a released drag at progress 3/4 commits with one callback
carrying the dragged element; a released drag at progress 1/20 (even with
high acceleration) fires no callback and clears the visual offset. -/
theorem endDrag_commit_decision_witness :
    (endDrag { target := some { eid := 1, swipeAttr := some "right",
                                offsetWidth := 100, offsetHeight := 40 },
               isDragging := true, startX := 0, startY := 0,
               direction := "right", timestamp := 5, distance := 3/4,
               velocity := 2, acceleration := 0,
               targetTranslate := some (75, 0),
               swipeDistanceVar := some (3/4) }).2 =
      [some { eid := 1, swipeAttr := some "right",
              offsetWidth := 100, offsetHeight := 40 }] ∧
    (endDrag { target := some { eid := 1, swipeAttr := some "right",
                                offsetWidth := 100, offsetHeight := 40 },
               isDragging := true, startX := 0, startY := 0,
               direction := "right", timestamp := 5, distance := 1/20,
               velocity := 2, acceleration := 7,
               targetTranslate := some (5, 0),
               swipeDistanceVar := some (1/20) }).2 = [] ∧
    (endDrag { target := some { eid := 1, swipeAttr := some "right",
                                offsetWidth := 100, offsetHeight := 40 },
               isDragging := true, startX := 0, startY := 0,
               direction := "right", timestamp := 5, distance := 1/20,
               velocity := 2, acceleration := 7,
               targetTranslate := some (5, 0),
               swipeDistanceVar := some (1/20) }).1.targetTranslate = none :=
  ⟨(endDrag_commit_decision
      { target := some { eid := 1, swipeAttr := some "right",
                         offsetWidth := 100, offsetHeight := 40 },
        isDragging := true, startX := 0, startY := 0,
        direction := "right", timestamp := 5, distance := 3/4,
        velocity := 2, acceleration := 0,
        targetTranslate := some (75, 0), swipeDistanceVar := some (3/4) }
      rfl).1 (by norm_num),
   ((endDrag_commit_decision
      { target := some { eid := 1, swipeAttr := some "right",
                         offsetWidth := 100, offsetHeight := 40 },
        isDragging := true, startX := 0, startY := 0,
        direction := "right", timestamp := 5, distance := 1/20,
        velocity := 2, acceleration := 7,
        targetTranslate := some (5, 0), swipeDistanceVar := some (1/20) }
      rfl).2 (by norm_num)).1,
   ((endDrag_commit_decision
      { target := some { eid := 1, swipeAttr := some "right",
                         offsetWidth := 100, offsetHeight := 40 },
        isDragging := true, startX := 0, startY := 0,
        direction := "right", timestamp := 5, distance := 1/20,
        velocity := 2, acceleration := 7,
        targetTranslate := some (5, 0), swipeDistanceVar := some (1/20) }
      rfl).2 (by norm_num)).2.1⟩

/-- C6 — zero-elapsed-time safety: a pointer-move sample whose event
timestamp equals the previous sample's timestamp makes `dt = 0`, the
`if (dt > 0)` guard skips the velocity/acceleration/distance computation
(hence no division by zero for any value of the `Math.hypot` primitive), and
the previous velocity, acceleration, distance and timestamp are retained. -/
theorem drag_zero_dt_retains (hyp : ℚ → ℚ → ℚ) (s : SwState) (e : PointerEvent)
    (ht : e.timeStamp = s.timestamp) :
    (drag hyp s e).velocity = s.velocity ∧
    (drag hyp s e).acceleration = s.acceleration ∧
    (drag hyp s e).distance = s.distance ∧
    (drag hyp s e).timestamp = s.timestamp := by
  have hdt : ¬ ((e.timeStamp - s.timestamp : ℚ) > 0) := by
    rw [ht]
    simp
  unfold drag
  repeat' split
  all_goals simp_all

/-- Witness for C6: a concrete repeated-timestamp sample during a rightward
drag leaves velocity, acceleration and distance untouched (instantiating the
opaque `Math.hypot` with an arbitrary concrete function). -/
theorem drag_zero_dt_retains_witness :
    (3 : ℚ) = 3 ∧
    (drag (fun x y => x + y)
      { target := some { eid := 1, swipeAttr := some "right",
                         offsetWidth := 100, offsetHeight := 40 },
        isDragging := true, startX := 0, startY := 0,
        direction := "right", timestamp := 3, distance := 1/5,
        velocity := 2, acceleration := 4,
        targetTranslate := some (20, 0), swipeDistanceVar := some (1/5) }
      { targetHit := none, clientX := 30, clientY := 0, timeStamp := 3 }).velocity = 2 :=
  ⟨rfl,
   (drag_zero_dt_retains (fun x y => x + y)
      { target := some { eid := 1, swipeAttr := some "right",
                         offsetWidth := 100, offsetHeight := 40 },
        isDragging := true, startX := 0, startY := 0,
        direction := "right", timestamp := 3, distance := 1/5,
        velocity := 2, acceleration := 4,
        targetTranslate := some (20, 0), swipeDistanceVar := some (1/5) }
      { targetHit := none, clientX := 30, clientY := 0, timeStamp := 3 }
      rfl).1⟩

end Swipeable

namespace SwipeableRAF

/-- An element as the `removeFunction`-based `Swipeable` revision
(`src/swipeable.js` lines 172-325) sees it: identity plus its bounding
client rect extent. -/
structure Elem2 where
  eid : Nat
  width : ℚ
  height : ℚ
  deriving DecidableEq

/-- A pointer event for that revision: `hit` is
`event.target.closest('[data-toast-id]')`, plus page coordinates. -/
structure Event2 where
  hit : Option Elem2
  pageX : ℚ
  pageY : ℚ
  deriving DecidableEq

/-- The gesture state of the `removeFunction`-based revision (the fields
`onStart` touches; the animation-frame interpolation fields `screenX`,
`screenY`, `targetX`, `targetY` are carried along untouched by `onStart`). -/
structure OnState where
  target : Option Elem2
  bcrWidth : ℚ
  bcrHeight : ℚ
  startX : ℚ
  startY : ℚ
  currentX : ℚ
  currentY : ℚ
  screenX : ℚ
  screenY : ℚ
  targetX : ℚ
  targetY : ℚ
  isDragging : Bool
  deriving DecidableEq

/-- Mirrors `onStart` (lines 212-227): `if (this.target) return;` — a
pointer-down while a gesture is active is ignored outright; otherwise, when
the event target is inside a toast-tagged element, the gesture state is
initialised towards it (origin, current position, bounding rect, dragging
flag).  The `will-change`/`z-index` style writes are presentation-only and
omitted. -/
def onStart (s : OnState) (e : Event2) : OnState :=
  if s.target.isSome then s
  else
    match e.hit with
    | none => s
    | some tgt =>
      { s with
          target := some tgt
          bcrWidth := tgt.width
          bcrHeight := tgt.height
          startX := e.pageX
          startY := e.pageY
          currentX := e.pageX
          currentY := e.pageY
          isDragging := true }

end SwipeableRAF

/-- Counterexample to C5 as stated: in the `onSwipe`-based tracker, a
pointer-down that lands on a swipeable element while a gesture is active is
NOT ignored — `startDrag` has no presence check, so the active-gesture state
is re-initialised towards the new target (here element 2 replaces element 1
and the recorded origin changes). -/
theorem gesture_start_not_ignored_counterexample :
    (Swipeable.startDrag
      { target := some { eid := 1, swipeAttr := some "right",
                         offsetWidth := 100, offsetHeight := 40 },
        isDragging := true, startX := 5, startY := 6, direction := "right",
        timestamp := 7, distance := 1/4, velocity := 1, acceleration := 0,
        targetTranslate := some (25, 0), swipeDistanceVar := some (1/4) }
      { targetHit := some { eid := 2, swipeAttr := some "left",
                            offsetWidth := 80, offsetHeight := 30 },
        clientX := 50, clientY := 60, timeStamp := 9 }).target =
      some { eid := 2, swipeAttr := some "left",
             offsetWidth := 80, offsetHeight := 30 } ∧
    Swipeable.startDrag
      { target := some { eid := 1, swipeAttr := some "right",
                         offsetWidth := 100, offsetHeight := 40 },
        isDragging := true, startX := 5, startY := 6, direction := "right",
        timestamp := 7, distance := 1/4, velocity := 1, acceleration := 0,
        targetTranslate := some (25, 0), swipeDistanceVar := some (1/4) }
      { targetHit := some { eid := 2, swipeAttr := some "left",
                            offsetWidth := 80, offsetHeight := 30 },
        clientX := 50, clientY := 60, timeStamp := 9 } ≠
      { target := some { eid := 1, swipeAttr := some "right",
                         offsetWidth := 100, offsetHeight := 40 },
        isDragging := true, startX := 5, startY := 6, direction := "right",
        timestamp := 7, distance := 1/4, velocity := 1, acceleration := 0,
        targetTranslate := some (25, 0), swipeDistanceVar := some (1/4) } := by
  decide

/-- C5 (amended) — single active-gesture slot: both trackers keep at most one
active gesture (one `target` slot).  In the `removeFunction`-based tracker,
`onStart` ignores a pointer-down while `target` is set, leaving the whole
gesture state unchanged; in the `onSwipe`-based tracker, `startDrag` instead
re-initialises the slot towards the new swipeable target (it is not
ignored), and a pointer-down outside any swipeable element leaves the state
unchanged. -/
theorem gesture_single_slot (s : SwipeableRAF.OnState) (e : SwipeableRAF.Event2)
    (s2 : Swipeable.SwState) (e2 : Swipeable.PointerEvent) :
    (s.target.isSome = true → SwipeableRAF.onStart s e = s) ∧
    (∀ tgt, e2.targetHit = some tgt →
      (Swipeable.startDrag s2 e2).target = some tgt ∧
      (Swipeable.startDrag s2 e2).isDragging = true) ∧
    (e2.targetHit = none → Swipeable.startDrag s2 e2 = s2) := by
  refine ⟨?_, ?_, ?_⟩
  · intro h
    unfold SwipeableRAF.onStart
    rw [if_pos h]
  · intro tgt h
    unfold Swipeable.startDrag
    rw [h]
    exact ⟨rfl, rfl⟩
  · intro h
    unfold Swipeable.startDrag
    rw [h]

/-- Witness for the amended C5: with a gesture active on element 1, a
pointer-down in the `onStart` tracker is a strict no-op, and in the
`startDrag` tracker a pointer-down on swipeable element 2 re-targets the
single slot. -/
theorem gesture_single_slot_witness :
    SwipeableRAF.onStart
      { target := some { eid := 1, width := 100, height := 40 },
        bcrWidth := 100, bcrHeight := 40, startX := 5, startY := 6,
        currentX := 8, currentY := 6, screenX := 3, screenY := 0,
        targetX := 0, targetY := 0, isDragging := true }
      { hit := some { eid := 2, width := 80, height := 30 },
        pageX := 50, pageY := 60 } =
      { target := some { eid := 1, width := 100, height := 40 },
        bcrWidth := 100, bcrHeight := 40, startX := 5, startY := 6,
        currentX := 8, currentY := 6, screenX := 3, screenY := 0,
        targetX := 0, targetY := 0, isDragging := true } ∧
    (Swipeable.startDrag Swipeable.initial
      { targetHit := some { eid := 2, swipeAttr := some "left",
                            offsetWidth := 80, offsetHeight := 30 },
        clientX := 50, clientY := 60, timeStamp := 9 }).target =
      some { eid := 2, swipeAttr := some "left",
             offsetWidth := 80, offsetHeight := 30 } :=
  ⟨(gesture_single_slot
      { target := some { eid := 1, width := 100, height := 40 },
        bcrWidth := 100, bcrHeight := 40, startX := 5, startY := 6,
        currentX := 8, currentY := 6, screenX := 3, screenY := 0,
        targetX := 0, targetY := 0, isDragging := true }
      { hit := some { eid := 2, width := 80, height := 30 },
        pageX := 50, pageY := 60 }
      Swipeable.initial
      { targetHit := some { eid := 2, swipeAttr := some "left",
                            offsetWidth := 80, offsetHeight := 30 },
        clientX := 50, clientY := 60, timeStamp := 9 }).1 rfl,
   ((gesture_single_slot
      { target := some { eid := 1, width := 100, height := 40 },
        bcrWidth := 100, bcrHeight := 40, startX := 5, startY := 6,
        currentX := 8, currentY := 6, screenX := 3, screenY := 0,
        targetX := 0, targetY := 0, isDragging := true }
      { hit := some { eid := 2, width := 80, height := 30 },
        pageX := 50, pageY := 60 }
      Swipeable.initial
      { targetHit := some { eid := 2, swipeAttr := some "left",
                            offsetWidth := 80, offsetHeight := 30 },
        clientX := 50, clientY := 60, timeStamp := 9 }).2.1
      { eid := 2, swipeAttr := some "left", offsetWidth := 80, offsetHeight := 30 }
      rfl).1⟩

namespace ToastQueuePlacement

/-- Mirrors `viewTransitionPlacementTypes` / `getPlacementViewTransitionClass`
(`src/utils.js` lines 6-38): a string-keyed lookup that is `undefined`
(`none`) outside the seven recognized placements. -/
def getPlacementViewTransitionClass (placement : String) : Option String :=
  if placement = "top-start" then some "block-start inline-start"
  else if placement = "top-center" then some "block-start"
  else if placement = "top-end" then some "block-start inline-end"
  else if placement = "bottom-start" then some "block-end inline-start"
  else if placement = "bottom-center" then some "block-end"
  else if placement = "bottom-end" then some "block-end inline-end"
  else if placement = "center" then some "block-end"
  else none

/-- Mirrors `swipeableDirectionPlacementTypes` / `getSwipeableDirection`
(`src/utils.js` lines 21-47): the fixed placement-to-axis table. -/
def getSwipeableDirection (placement : String) : Option String :=
  if placement = "top-start" then some "left"
  else if placement = "top-center" then some "up"
  else if placement = "top-end" then some "right"
  else if placement = "bottom-start" then some "left"
  else if placement = "bottom-center" then some "down"
  else if placement = "bottom-end" then some "right"
  else if placement = "center" then some "inline"
  else none

/-- Assigning a JavaScript value to a `dataset` property stringifies it;
`undefined` becomes the literal string `"undefined"`. -/
def datasetValue (v : Option String) : String := v.getD "undefined"

/-- A queued toast as the placement machinery sees it (the revision of
`toast-queue.js` with `#placement`, `src/unnamed/part_001`): its id, index,
`dismissible` flag, the `data-swipeable` attribute on its toast part (`none`
= attribute absent — the permitted gesture axis), and the
`view-transition-class` style property. -/
structure Toast1 where
  id : String
  index : Nat
  dismissible : Bool
  swipeable : Option String
  vtClass : String
  deriving DecidableEq

/-- The attribute/style writes `add` performs on the new toast part
(part_001 lines 517-583): `data-swipeable` is set from the current placement
only when the toast is dismissible; the view-transition class is always set. -/
def add1 (q : List Toast1) (placement : String) (newId : String)
    (dismissible : Bool) : List Toast1 × Toast1 :=
  let ref : Toast1 :=
    { id := newId
      index := q.length + 1
      dismissible := dismissible
      swipeable :=
        if dismissible then some (datasetValue (getSwipeableDirection placement))
        else none
      vtClass := "tq-toast " ++ datasetValue (getPlacementViewTransitionClass placement) }
  (q ++ [ref], ref)

/-- Mirrors `set placement` (part_001 lines 456-471): for every queued toast,
rewrite its `view-transition-class` from the new placement, and, when it is
dismissible, rewrite its `data-swipeable` attribute from the fixed
placement-to-axis table.  (The `this.#rootPart.dataset.placement` update is
presentation-only and omitted.) -/
def setPlacement (q : List Toast1) (value : String) : List Toast1 :=
  q.map fun t =>
    let t1 : Toast1 :=
      { t with vtClass := "tq-toast " ++ datasetValue (getPlacementViewTransitionClass value) }
    if t.dismissible then
      { t1 with swipeable := some (datasetValue (getSwipeableDirection value)) }
    else t1

theorem add1_no_axis_on_non_dismissible (q : List Toast1) (placement newId : String)
    (dismissible : Bool)
    (hq : q.all (fun t => t.dismissible || (t.swipeable == none)) = true) :
    (add1 q placement newId dismissible).1.all
      (fun t => t.dismissible || (t.swipeable == none)) = true := by
  simp only [List.all_eq_true] at hq ⊢
  intro t ht
  simp only [add1, List.mem_append, List.mem_singleton] at ht
  cases ht with
  | inl h => exact hq t h
  | inr h =>
    subst h
    by_cases hd : dismissible
    · simp [hd]
    · simp [hd]

/-- C7 — placement-change axis consistency: for any recognized new placement
(one mapped to an axis `d` by the fixed table), after `placement` is
reassigned, every dismissible entry in the queue carries exactly the axis
`d` mapped from the new placement, and (given that non-dismissible entries
never carry an axis, which `add` establishes) no entry retains an axis
derived from the prior placement. -/
theorem placement_axis_consistency (q : List Toast1) (value d : String)
    (hv : getSwipeableDirection value = some d)
    (hq : q.all (fun t => t.dismissible || (t.swipeable == none)) = true) :
    (setPlacement q value).all
      (fun t => (!t.dismissible || (t.swipeable == some d)) &&
                (t.dismissible || (t.swipeable == none))) = true := by
  simp only [List.all_eq_true] at hq ⊢
  intro t ht
  simp only [setPlacement, List.mem_map] at ht
  obtain ⟨t0, ht0, rfl⟩ := ht
  by_cases hd : t0.dismissible
  · simp [hd, hv, datasetValue]
  · have h0 := hq t0 ht0
    simp only [hd, Bool.false_or, beq_iff_eq] at h0
    simp [hd, h0]

/-- Witness for C7: a queue holding a dismissible toast with the stale axis
`left` and a non-dismissible toast with no axis; after reassigning placement
to `bottom-center`, the dismissible toast carries exactly `down` and the
non-dismissible one still carries no axis. -/
theorem placement_axis_consistency_witness :
    getSwipeableDirection "bottom-center" = some "down" ∧
    (setPlacement
      [{ id := "a", index := 1, dismissible := true, swipeable := some "left",
         vtClass := "tq-toast block-start inline-start" },
       { id := "b", index := 2, dismissible := false, swipeable := none,
         vtClass := "tq-toast block-start inline-start" }] "bottom-center").all
      (fun t => (!t.dismissible || (t.swipeable == some "down")) &&
                (t.dismissible || (t.swipeable == none))) = true :=
  ⟨rfl,
   placement_axis_consistency
     [{ id := "a", index := 1, dismissible := true, swipeable := some "left",
        vtClass := "tq-toast block-start inline-start" },
      { id := "b", index := 2, dismissible := false, swipeable := none,
        vtClass := "tq-toast block-start inline-start" }]
     "bottom-center" "down" rfl (by decide)⟩

end ToastQueuePlacement
